import Mathlib

/-!
Shallow embedding of the `ExecutionPlan` React component
(`frontend/src/components/ExecutionPlan.js`) and of the priority-summary
part of the `Recommendations` component.

Modelling conventions:
* JSON values are modelled by `JValue`.  JavaScript `undefined` is
  represented by an absent key (`Option.none` from a lookup); JSON `null`
  is the explicit constructor `JValue.null`, since the source guards
  against it (`value !== undefined && value !== null`).
* A raw plan node is a JavaScript object.  The structural key `Plans`
  (an array of child nodes) is modelled by the `plans` component of
  `PlanNode`; every other key/value pair lives in `fields`, in insertion
  order.  An absent `Plans` key and an empty `Plans` array behave
  identically in all the code under study (`forEach` over `[]` is a no-op
  and `[].length > 0` is false), so both are modelled by `plans = []`.
* Purely presentational attributes of a metric card (icon, colour,
  description text) are not observed by any property below and are
  omitted from the `Metric` record; the originating key, the displayed
  title, the displayed value and the long-text flag are kept.
-/

inductive JValue : Type where
  | str (s : String)
  | num (n : Int)
  | bool (b : Bool)
  | null
  | arr (elems : List JValue)

inductive PlanNode : Type where
  | mk (fields : List (String × JValue)) (plans : List PlanNode)

def PlanNode.fields : PlanNode → List (String × JValue)
  | .mk fs _ => fs

def PlanNode.plans : PlanNode → List PlanNode
  | .mk _ ps => ps

/-- JavaScript property read `node[key]` (absent key = `undefined` = `none`). -/
def jsGet (node : PlanNode) (key : String) : Option JValue :=
  node.fields.lookup key

/-- JavaScript truthiness of a value (`NaN` is not representable here). -/
def jsTruthy : JValue → Bool
  | .str s => !(s == "")
  | .num n => !(n == 0)
  | .bool b => b
  | .null => false
  | .arr _ => true

def JValue.isNull : JValue → Bool
  | .null => true
  | _ => false

mutual

/-- JavaScript string conversion, as used by template literals and
`Array.prototype.join` (where `null` renders as the empty string). -/
def jsToString : JValue → String
  | .str s => s
  | .num n => toString n
  | .bool b => cond b "true" "false"
  | .null => ""
  | .arr xs => jsToStringList xs

def jsToStringList : List JValue → String
  | [] => ""
  | [x] => jsToString x
  | x :: y :: rest => jsToString x ++ "," ++ jsToStringList (y :: rest)

end

mutual

def JValue.beq : JValue → JValue → Bool
  | .str a, .str b => a == b
  | .num a, .num b => a == b
  | .bool a, .bool b => a == b
  | .null, .null => true
  | .arr a, .arr b => JValue.beqList a b
  | _, _ => false

def JValue.beqList : List JValue → List JValue → Bool
  | [], [] => true
  | a :: as, b :: bs => JValue.beq a b && JValue.beqList as bs
  | _, _ => false

end

mutual

theorem jvalueBeq_iff : ∀ a b : JValue, (JValue.beq a b = true) ↔ a = b
  | .str _, b => by cases b <;> simp [JValue.beq]
  | .num _, b => by cases b <;> simp [JValue.beq]
  | .bool _, b => by cases b <;> simp [JValue.beq]
  | .null, b => by cases b <;> simp [JValue.beq]
  | .arr _, .str _ => by simp [JValue.beq]
  | .arr _, .num _ => by simp [JValue.beq]
  | .arr _, .bool _ => by simp [JValue.beq]
  | .arr _, .null => by simp [JValue.beq]
  | .arr as, .arr bs => by
      simp only [JValue.beq, JValue.arr.injEq]
      exact jvalueBeqList_iff as bs

theorem jvalueBeqList_iff : ∀ as bs : List JValue, (JValue.beqList as bs = true) ↔ as = bs
  | [], [] => by simp [JValue.beqList]
  | [], _ :: _ => by simp [JValue.beqList]
  | _ :: _, [] => by simp [JValue.beqList]
  | a :: as, b :: bs => by
      simp only [JValue.beqList, Bool.and_eq_true, List.cons.injEq]
      rw [jvalueBeq_iff a b, jvalueBeqList_iff as bs]

end

instance : DecidableEq JValue :=
  fun a b => decidable_of_iff _ (jvalueBeq_iff a b)

mutual

def PlanNode.beq : PlanNode → PlanNode → Bool
  | .mk fs ps, .mk gs qs => decide (fs = gs) && PlanNode.beqList ps qs

def PlanNode.beqList : List PlanNode → List PlanNode → Bool
  | [], [] => true
  | a :: as, b :: bs => PlanNode.beq a b && PlanNode.beqList as bs
  | _, _ => false

end

mutual

theorem planNodeBeq_iff : ∀ a b : PlanNode, (PlanNode.beq a b = true) ↔ a = b
  | .mk fs ps, .mk gs qs => by
      simp only [PlanNode.beq, Bool.and_eq_true, decide_eq_true_eq, PlanNode.mk.injEq]
      rw [planNodeBeqList_iff ps qs]

theorem planNodeBeqList_iff : ∀ as bs : List PlanNode, (PlanNode.beqList as bs = true) ↔ as = bs
  | [], [] => by simp [PlanNode.beqList]
  | [], _ :: _ => by simp [PlanNode.beqList]
  | _ :: _, [] => by simp [PlanNode.beqList]
  | a :: as, b :: bs => by
      simp only [PlanNode.beqList, Bool.and_eq_true, List.cons.injEq]
      rw [planNodeBeq_iff a b, planNodeBeqList_iff as bs]

end

instance : DecidableEq PlanNode :=
  fun a b => decidable_of_iff _ (planNodeBeq_iff a b)

/-- The Russian title dictionary `fieldNames` of the component. -/
def fieldNames (key : String) : Option String :=
  match key with
  | "Node Type" => some "Тип узла"
  | "Total Cost" => some "Общая стоимость"
  | "Startup Cost" => some "Стоимость запуска"
  | "Plan Rows" => some "Ожидаемые строки"
  | "Plan Width" => some "Ширина строки"
  | "Join Type" => some "Тип соединения"
  | "Strategy" => some "Стратегия"
  | "Index Name" => some "Название индекса"
  | "Relation Name" => some "Название таблицы"
  | "Alias" => some "Псевдоним"
  | "Hash Cond" => some "Условие хеша"
  | "Index Cond" => some "Условие индекса"
  | "Filter" => some "Фильтр"
  | "Sort Key" => some "Ключ сортировки"
  | "Group Key" => some "Ключ группировки"
  | "Scan Direction" => some "Направление сканирования"
  | "Parallel Aware" => some "Параллельный"
  | "Async Capable" => some "Асинхронный"
  | "Inner Unique" => some "Внутренняя уникальность"
  | "Partial Mode" => some "Режим частичной агрегации"
  | "Planned Partitions" => some "Запланированные партиции"
  | "Parent Relationship" => some "Связь с родителем"
  | "Query Type" => some "Тип запроса"
  | _ => none

/-- The fixed primary allow-list, shared by `getPrimaryMetrics` and
`getSecondaryMetrics` in the source. -/
def primaryFields : List String :=
  ["Node Type", "Total Cost", "Plan Rows", "Startup Cost"]

/-- The filter `node[key] !== undefined && node[key] !== null`. -/
def presentNonNull (node : PlanNode) (key : String) : Bool :=
  match jsGet node key with
  | some v => !v.isNull
  | none => false

/-- A rendered metric card (presentational icon/colour/description omitted;
`key` records which source field the card came from). -/
structure Metric where
  key : String
  title : String
  value : JValue
  isLongText : Bool
  deriving DecidableEq

/-- Value normalization of `getSecondaryMetrics`: arrays are joined with
a comma-space separator, booleans become the labels `Да` / `Нет`,
everything else passes through unchanged. -/
def displayValue : JValue → JValue
  | .arr xs => .str (String.intercalate ", " (xs.map jsToString))
  | .bool b => .str (if b then "Да" else "Нет")
  | v => v

/-- `typeof displayValue === 'string' && displayValue.length > 20`. -/
def isLongTextOf : JValue → Bool
  | .str s => decide (20 < s.length)
  | _ => false

def mkPrimaryMetric (node : PlanNode) (key : String) : Metric :=
  { key := key
    title := (fieldNames key).getD key
    value := (jsGet node key).getD JValue.null
    isLongText := false }

/-- `getPrimaryMetrics`: the four allow-listed fields, filtered to those
present and non-null, in allow-list order. -/
def getPrimaryMetrics (node : PlanNode) : List Metric :=
  (primaryFields.filter (presentNonNull node)).map (mkPrimaryMetric node)

def mkSecondaryMetric (key : String) (value : JValue) : Metric :=
  { key := key
    title := (fieldNames key).getD key
    value := displayValue value
    isLongText := isLongTextOf (displayValue value) }

/-- `getSecondaryMetrics`: every entry of the node other than `Plans` and
the primary allow-list whose value is non-null, in object order. -/
def getSecondaryMetrics (node : PlanNode) : List Metric :=
  (node.fields.filter (fun kv =>
      !(decide (kv.1 = "Plans")) && !(decide (kv.1 ∈ primaryFields)) && !kv.2.isNull)).map
    (fun kv => mkSecondaryMetric kv.1 kv.2)

def metricKeys (ms : List Metric) : List String :=
  ms.map Metric.key

/-- JavaScript `v || dflt` coerced to a string, for a possibly absent
property value (used with `'unknown'` in `getNodeId` and `'Unknown'` in
the node header). -/
def jsOrString (v : Option JValue) (dflt : String) : String :=
  match v with
  | some w => if jsTruthy w then jsToString w else dflt
  | none => dflt

/-- `getNodeId`: the template literal `depth-index-(node['Node Type'] || 'unknown')`. -/
def getNodeId (node : PlanNode) (depth index : Nat) : String :=
  toString depth ++ "-" ++ toString index ++ "-" ++
    jsOrString (jsGet node "Node Type") "unknown"

/-- The node-header label `node['Node Type'] || 'Unknown'`. -/
def jsLabel (node : PlanNode) : String :=
  jsOrString (jsGet node "Node Type") "Unknown"

/-- `toggleNode`: delete the id if present, add it otherwise. -/
def toggleNode (expanded : Finset String) (nodeId : String) : Finset String :=
  if nodeId ∈ expanded then expanded.erase nodeId else insert nodeId expanded

/-- `isExpanded`: the membership test `expandedNodes.has(nodeId)`. -/
def isExpanded (expanded : Finset String) (nodeId : String) : Bool :=
  decide (nodeId ∈ expanded)

mutual

/-- The `collectNodeIds` recursion inside `expandAll` (note that it
recurses whenever `Plans` is present, with the child depth `depth + 1`
and the child sibling index from `forEach`). -/
def collectNodeIds : PlanNode → Nat → Nat → List String
  | .mk fs ps, depth, index =>
      getNodeId (.mk fs ps) depth index :: collectNodeIdsList ps (depth + 1) 0

def collectNodeIdsList : List PlanNode → Nat → Nat → List String
  | [], _, _ => []
  | p :: rest, depth, index =>
      collectNodeIds p depth index ++ collectNodeIdsList rest depth (index + 1)

end

/-- `expandAll`: the set of every node id collected from the whole plan. -/
def expandAll (plan : PlanNode) : Finset String :=
  (collectNodeIds plan 0 0).toFinset

/-- `collapseAll`: the state becomes a fresh empty set. -/
def collapseAll : Finset String := ∅

mutual

/-- Specification-side pre-order traversal: every node of the tree paired
with the depth and sibling index it is visited with (the root at depth 0,
index 0, exactly as `renderPlanNode` starts the recursion). -/
def preorderNodes : PlanNode → Nat → Nat → List (PlanNode × Nat × Nat)
  | .mk fs ps, depth, index =>
      (PlanNode.mk fs ps, depth, index) :: preorderNodesList ps (depth + 1) 0

def preorderNodesList : List PlanNode → Nat → Nat → List (PlanNode × Nat × Nat)
  | [], _, _ => []
  | p :: rest, depth, index =>
      preorderNodes p depth index ++ preorderNodesList rest depth (index + 1)

end

/-- The component state: one `showDetails` flag for the whole tree and
one set of expanded node ids. -/
structure UIState where
  showDetails : Bool
  expandedNodes : Finset String
  deriving DecidableEq

/-- The `onClick` handler of the details button rendered under a node:
`() => setShowDetails(!showDetails)`.  The id of the node whose button
was pressed is passed here only to show it is ignored. -/
def detailsButtonHandler (_pressedNodeId : String) (st : UIState) : UIState :=
  { st with showDetails := !st.showDetails }

/-- `hasChildren = node['Plans'] && node['Plans'].length > 0`. -/
def hasChildrenOf (node : PlanNode) : Bool :=
  decide (0 < node.plans.length)

/-- What `TreeNode` puts in the DOM for one node: its id, header label,
primary metric cards, the full secondary metric list (to size the button
text), whether the details button is shown, whether the secondary cards
are shown, and the rendered children (empty unless expanded). -/
inductive Rendered : Type where
  | mk (nodeId : String) (label : String)
       (primary : List Metric) (secondary : List Metric)
       (detailsButton : Bool) (secondaryShown : Bool)
       (children : List Rendered)

def Rendered.nodeId : Rendered → String
  | .mk x _ _ _ _ _ _ => x

def Rendered.label : Rendered → String
  | .mk _ x _ _ _ _ _ => x

def Rendered.primary : Rendered → List Metric
  | .mk _ _ x _ _ _ _ => x

def Rendered.secondary : Rendered → List Metric
  | .mk _ _ _ x _ _ _ => x

def Rendered.detailsButton : Rendered → Bool
  | .mk _ _ _ _ x _ _ => x

def Rendered.secondaryShown : Rendered → Bool
  | .mk _ _ _ _ _ x _ => x

def Rendered.children : Rendered → List Rendered
  | .mk _ _ _ _ _ _ x => x

mutual

/-- The `TreeNode` component: the button row is rendered when
`secondaryMetrics.length > 0`, the secondary cards when additionally
`showDetails` holds, and the children when `hasChildren && isExpanded`. -/
def renderNode (st : UIState) : PlanNode → Nat → Nat → Rendered
  | .mk fs ps, depth, index =>
      Rendered.mk
        (getNodeId (.mk fs ps) depth index)
        (jsLabel (.mk fs ps))
        (getPrimaryMetrics (.mk fs ps))
        (getSecondaryMetrics (.mk fs ps))
        (decide (0 < (getSecondaryMetrics (.mk fs ps)).length))
        (st.showDetails && decide (0 < (getSecondaryMetrics (.mk fs ps)).length))
        (if hasChildrenOf (.mk fs ps) &&
            isExpanded st.expandedNodes (getNodeId (.mk fs ps) depth index)
         then renderNodeList st ps (depth + 1) 0
         else [])

def renderNodeList (st : UIState) : List PlanNode → Nat → Nat → List Rendered
  | [], _, _ => []
  | p :: rest, depth, index =>
      renderNode st p depth index :: renderNodeList st rest depth (index + 1)

end

/-- The `ExecutionPlan` component itself: `if (!plan) return null`,
otherwise render the tree from the root at depth 0, index 0. -/
def ExecutionPlan (st : UIState) : Option PlanNode → Option Rendered
  | none => none
  | some plan => some (renderNode st plan 0 0)

mutual

/-- All rendered nodes of a rendered tree (the node itself and,
recursively, its rendered children). -/
def flattenRendered : Rendered → List Rendered
  | .mk a b c d e f children =>
      Rendered.mk a b c d e f children :: flattenRenderedList children

def flattenRenderedList : List Rendered → List Rendered
  | [] => []
  | r :: rest => flattenRendered r ++ flattenRenderedList rest

end

/-- A recommendation as consumed by the `Recommendations` component
(the JavaScript field `type` is spelled `rtype`; fields not observed by
any property below, such as `estimated_speedup`, are omitted). -/
structure Recommendation where
  title : String
  description : String
  rtype : String
  priority : String
  deriving DecidableEq

/-- The `baseClasses` constant of `getPriorityBadge`. -/
def baseClasses : String := "badge"

/-- `getPriorityBadge`: the switch over the priority string. -/
def getPriorityBadge (priority : String) : String :=
  if priority = "high" then baseClasses ++ " badge-high"
  else if priority = "medium" then baseClasses ++ " badge-medium"
  else if priority = "low" then baseClasses ++ " badge-low"
  else baseClasses ++ " bg-gray-100 text-gray-800"

/-- One rendered list item of the recommendations list: its heading, the
badge class from `getPriorityBadge`, and the badge text
`recommendation.priority.toUpperCase()`. -/
structure RecItem where
  heading : String
  badgeClass : String
  badgeText : String
  deriving DecidableEq

/-- The `recommendations.map(...)` list render: one item per
recommendation, in order, whatever its priority. -/
def renderRecommendationList (recs : List Recommendation) : List RecItem :=
  recs.map (fun r =>
    { heading := r.title
      badgeClass := getPriorityBadge r.priority
      badgeText := r.priority.toUpper })

/-- One count of the priority summary:
`recommendations.filter(r => r.priority === p).length`. -/
def countPriority (recs : List Recommendation) (p : String) : Nat :=
  (recs.filter (fun r => r.priority == p)).length

/-- The three counts of the priority summary block, in display order
(HIGH, MEDIUM, LOW). -/
def prioritySummary (recs : List Recommendation) : Nat × Nat × Nat :=
  (countPriority recs "high", countPriority recs "medium", countPriority recs "low")

/-! Helper lemmas. -/

theorem lookup_eq_some_of_nodupKeys :
    ∀ (l : List (String × JValue)) (k : String) (v : JValue),
      (l.map Prod.fst).Nodup → (k, v) ∈ l → l.lookup k = some v
  | [], _, _, _, h => absurd h (List.not_mem_nil _)
  | (a, b) :: rest, k, v, hnd, hmem => by
      simp only [List.map_cons, List.nodup_cons] at hnd
      rcases List.mem_cons.mp hmem with h | h
      · injection h with h1 h2
        subst h1; subst h2
        simp [List.lookup]
      · have hka : k ≠ a := by
          intro he
          exact hnd.1 (he ▸ List.mem_map.mpr ⟨(k, v), h, rfl⟩)
        have hb : (k == a) = false := beq_false_of_ne hka
        simp only [List.lookup, hb]
        exact lookup_eq_some_of_nodupKeys rest k v hnd.2 h

mutual

theorem collectNodeIds_eq_preorder :
    ∀ (p : PlanNode) (d i : Nat),
      collectNodeIds p d i
        = (preorderNodes p d i).map (fun t => getNodeId t.1 t.2.1 t.2.2)
  | .mk fs ps, d, i => by
      simp only [collectNodeIds, preorderNodes, List.map_cons]
      rw [collectNodeIdsList_eq_preorder ps (d + 1) 0]

theorem collectNodeIdsList_eq_preorder :
    ∀ (ps : List PlanNode) (d i : Nat),
      collectNodeIdsList ps d i
        = (preorderNodesList ps d i).map (fun t => getNodeId t.1 t.2.1 t.2.2)
  | [], _, _ => by simp [collectNodeIdsList, preorderNodesList]
  | p :: rest, d, i => by
      simp only [collectNodeIdsList, preorderNodesList, List.map_append]
      rw [collectNodeIds_eq_preorder p d i,
        collectNodeIdsList_eq_preorder rest d (i + 1)]

end

theorem self_mem_flattenRendered : ∀ r : Rendered, r ∈ flattenRendered r
  | .mk a b c d e f ch => by
      simp only [flattenRendered]
      exact List.mem_cons_self _ _

mutual

theorem secondaryShown_of_mem_render :
    ∀ (st : UIState) (p : PlanNode) (d i : Nat) (r : Rendered),
      r ∈ flattenRendered (renderNode st p d i) →
      r.secondaryShown = (st.showDetails && decide (0 < r.secondary.length))
  | st, .mk fs ps, d, i, r, hr => by
      simp only [renderNode, flattenRendered] at hr
      rcases List.mem_cons.mp hr with h | h
      · subst h
        simp [Rendered.secondaryShown, Rendered.secondary]
      · rcases hif : (hasChildrenOf (.mk fs ps) &&
            isExpanded st.expandedNodes (getNodeId (.mk fs ps) d i)) with _ | _
        · rw [hif] at h
          simp only [if_neg Bool.false_ne_true, flattenRenderedList] at h
          exact absurd h (List.not_mem_nil _)
        · rw [hif] at h
          simp only [if_pos rfl] at h
          exact secondaryShown_of_mem_renderList st ps (d + 1) 0 r h

theorem secondaryShown_of_mem_renderList :
    ∀ (st : UIState) (ps : List PlanNode) (d i : Nat) (r : Rendered),
      r ∈ flattenRenderedList (renderNodeList st ps d i) →
      r.secondaryShown = (st.showDetails && decide (0 < r.secondary.length))
  | st, [], d, i, r, hr => by
      simp only [renderNodeList, flattenRenderedList] at hr
      exact absurd hr (List.not_mem_nil _)
  | st, p :: rest, d, i, r, hr => by
      simp only [renderNodeList, flattenRenderedList] at hr
      rcases List.mem_append.mp hr with h | h
      · exact secondaryShown_of_mem_render st p d i r h
      · exact secondaryShown_of_mem_renderList st rest d (i + 1) r h

end

theorem isNull_false_iff (v : JValue) : (v.isNull = false) ↔ v ≠ JValue.null := by
  cases v <;> simp [JValue.isNull]

theorem metricKeys_primary (node : PlanNode) :
    metricKeys (getPrimaryMetrics node) = primaryFields.filter (presentNonNull node) := by
  simp only [metricKeys, getPrimaryMetrics, List.map_map]
  have hid : (Metric.key ∘ mkPrimaryMetric node) = id := by
    funext k
    rfl
  rw [hid, List.map_id]

theorem mem_metricKeys_secondary (node : PlanNode) (k : String) :
    k ∈ metricKeys (getSecondaryMetrics node) ↔
      ∃ v, (k, v) ∈ node.fields ∧ k ≠ "Plans" ∧ ¬ k ∈ primaryFields ∧ v ≠ JValue.null := by
  constructor
  · intro h
    simp only [metricKeys, getSecondaryMetrics, List.map_map, List.mem_map] at h
    obtain ⟨kv, hkv, hk⟩ := h
    obtain ⟨hmem, hfilt⟩ := List.mem_filter.mp hkv
    obtain ⟨k2, v⟩ := kv
    simp only [Bool.and_eq_true, Bool.not_eq_true', decide_eq_false_iff_not,
      isNull_false_iff] at hfilt
    have hk2 : k2 = k := hk
    subst hk2
    exact ⟨v, hmem, hfilt.1.1, hfilt.1.2, hfilt.2⟩
  · rintro ⟨v, hmem, hp, hP, hv⟩
    simp only [metricKeys, getSecondaryMetrics, List.map_map, List.mem_map]
    refine ⟨(k, v), List.mem_filter.mpr ⟨hmem, ?_⟩, rfl⟩
    simp only [Bool.and_eq_true, Bool.not_eq_true', decide_eq_false_iff_not,
      isNull_false_iff]
    exact ⟨⟨hp, hP⟩, hv⟩

theorem countPriority_cons (a : Recommendation) (rest : List Recommendation) (p : String) :
    countPriority (a :: rest) p
      = countPriority rest p + (if a.priority = p then 1 else 0) := by
  by_cases h : a.priority = p
  · simp [countPriority, List.filter_cons, h]
  · simp [countPriority, List.filter_cons, h]

theorem countPriority_sum_le (recs : List Recommendation) :
    countPriority recs "high" + countPriority recs "medium" + countPriority recs "low"
      ≤ recs.length := by
  induction recs with
  | nil => simp [countPriority]
  | cons a rest ih =>
      simp only [countPriority_cons, List.length_cons]
      by_cases h1 : a.priority = "high" <;> by_cases h2 : a.priority = "medium" <;>
        by_cases h3 : a.priority = "low" <;> simp_all <;> omega

theorem countPriority_sum_lt :
    ∀ (recs : List Recommendation) (r : Recommendation),
      r ∈ recs → ¬ r.priority ∈ (["high", "medium", "low"] : List String) →
      countPriority recs "high" + countPriority recs "medium" + countPriority recs "low"
        < recs.length
  | [], r, hmem, _ => absurd hmem (List.not_mem_nil _)
  | a :: rest, r, hmem, hp => by
      simp only [List.mem_cons, List.mem_singleton, not_or] at hp
      simp only [countPriority_cons, List.length_cons]
      rcases List.mem_cons.mp hmem with h | h
      · subst h
        simp only [if_neg hp.1, if_neg hp.2.1, if_neg hp.2.2.1]
        have hle := countPriority_sum_le rest
        omega
      · have hlt := countPriority_sum_lt rest r h
          (by simp only [List.mem_cons, List.mem_singleton, not_or]; exact hp)
        by_cases h1 : a.priority = "high" <;> by_cases h2 : a.priority = "medium" <;>
          by_cases h3 : a.priority = "low" <;> simp_all <;> omega

/-! Claim C1. -/

/-- Claim C1, counterexample: in the raw plan node whose single field is
`Filter` bound to JSON `null`, the key `Filter` is present and distinct
from `Plans`, yet both metric lists are empty, so the key appears in
neither list — refuting the claim that every present key other than
`Plans` appears in exactly one of the two. -/
theorem c1_null_key_in_neither :
    ("Filter", JValue.null) ∈ (PlanNode.mk [("Filter", JValue.null)] []).fields ∧
    "Filter" ≠ "Plans" ∧
    getPrimaryMetrics (PlanNode.mk [("Filter", JValue.null)] []) = [] ∧
    getSecondaryMetrics (PlanNode.mk [("Filter", JValue.null)] []) = [] := by
  decide

/-- Claim C1 (amended): for every raw plan node with distinct keys, every
key other than `Plans` that is present with a non-null value appears in
exactly one of the primary and secondary metric lists; a key bound to
JSON `null` is dropped from both. -/
theorem c1_nonnull_key_partition (node : PlanNode) (k : String) (v : JValue)
    (hnd : (node.fields.map Prod.fst).Nodup)
    (hmem : (k, v) ∈ node.fields) (hkp : k ≠ "Plans") (hv : v ≠ JValue.null) :
    (k ∈ metricKeys (getPrimaryMetrics node) ∧ ¬ k ∈ metricKeys (getSecondaryMetrics node)) ∨
    (¬ k ∈ metricKeys (getPrimaryMetrics node) ∧ k ∈ metricKeys (getSecondaryMetrics node)) := by
  by_cases hkP : k ∈ primaryFields
  · left
    constructor
    · rw [metricKeys_primary]
      refine List.mem_filter.mpr ⟨hkP, ?_⟩
      have hlk : node.fields.lookup k = some v :=
        lookup_eq_some_of_nodupKeys node.fields k v hnd hmem
      simp only [presentNonNull, jsGet, hlk, Bool.not_eq_true', isNull_false_iff]
      exact hv
    · rw [mem_metricKeys_secondary]
      rintro ⟨w, _, _, hP, _⟩
      exact hP hkP
  · right
    constructor
    · rw [metricKeys_primary]
      intro hc
      exact hkP (List.mem_filter.mp hc).1
    · exact (mem_metricKeys_secondary node k).mpr ⟨v, hmem, hkp, hkP, hv⟩

def c1WitnessNode : PlanNode :=
  .mk [("Node Type", JValue.str "Seq Scan"), ("Filter", JValue.str "x > 10")] []

/-- Claim C1, witness: on a concrete node the amended partition theorem
applies, with all hypotheses discharged by evaluation. -/
theorem c1_nonnull_key_partition_witness :
    ("Filter" ∈ metricKeys (getPrimaryMetrics c1WitnessNode) ∧
      ¬ "Filter" ∈ metricKeys (getSecondaryMetrics c1WitnessNode)) ∨
    (¬ "Filter" ∈ metricKeys (getPrimaryMetrics c1WitnessNode) ∧
      "Filter" ∈ metricKeys (getSecondaryMetrics c1WitnessNode)) :=
  c1_nonnull_key_partition c1WitnessNode "Filter" (JValue.str "x > 10")
    (by decide) (by decide) (by decide) (by decide)

/-! Claim C2. -/

/-- Claim C2, counterexample: `Total Cost` is one of the four primary
keys and is present in the node `{"Total Cost": null}`, yet
`getPrimaryMetrics` returns the empty list — refuting the claim that a
primary key is included exactly when present. -/
theorem c2_null_primary_dropped :
    ("Total Cost", JValue.null) ∈ (PlanNode.mk [("Total Cost", JValue.null)] []).fields ∧
    "Total Cost" ∈ primaryFields ∧
    getPrimaryMetrics (PlanNode.mk [("Total Cost", JValue.null)] []) = [] := by
  decide

/-- Claim C2 (amended): for every raw plan node, `getPrimaryMetrics`
returns at most 4 entries, and a key contributes an entry exactly when
it is one of the four allow-listed keys and is present with a non-null
value in the node. -/
theorem c2_primary_allowlist (node : PlanNode) :
    (getPrimaryMetrics node).length ≤ 4 ∧
    ∀ k : String, k ∈ metricKeys (getPrimaryMetrics node) ↔
      (k ∈ primaryFields ∧ presentNonNull node k = true) := by
  constructor
  · have h1 : (primaryFields.filter (presentNonNull node)).length ≤ primaryFields.length :=
      List.length_filter_le _ _
    simpa [getPrimaryMetrics, primaryFields] using h1
  · intro k
    rw [metricKeys_primary]
    exact List.mem_filter

/-! Claim C3. -/

/-- Claim C3: every secondary attribute of a plan node is displayed
through the value normalization of `getSecondaryMetrics`: an array value
is displayed as the comma-joined string of its elements, a boolean value
as the label `Да` (true) or `Нет` (false), and the displayed value is
never a raw boolean. -/
theorem c3_secondary_value_norm (node : PlanNode) (k : String) (v : JValue)
    (hmem : (k, v) ∈ node.fields) (hkp : k ≠ "Plans") (hkP : ¬ k ∈ primaryFields)
    (hv : v ≠ JValue.null) :
    mkSecondaryMetric k v ∈ getSecondaryMetrics node ∧
    (∀ xs, v = JValue.arr xs →
      (mkSecondaryMetric k v).value
        = JValue.str (String.intercalate ", " (xs.map jsToString))) ∧
    (v = JValue.bool true → (mkSecondaryMetric k v).value = JValue.str "Да") ∧
    (v = JValue.bool false → (mkSecondaryMetric k v).value = JValue.str "Нет") ∧
    (∀ b : Bool, (mkSecondaryMetric k v).value ≠ JValue.bool b) := by
  refine ⟨?_, ?_, ?_, ?_, ?_⟩
  · simp only [getSecondaryMetrics, List.mem_map]
    refine ⟨(k, v), List.mem_filter.mpr ⟨hmem, ?_⟩, rfl⟩
    simp only [Bool.and_eq_true, Bool.not_eq_true', decide_eq_false_iff_not, isNull_false_iff]
    exact ⟨⟨hkp, hkP⟩, hv⟩
  · rintro xs rfl
    rfl
  · rintro rfl
    rfl
  · rintro rfl
    rfl
  · intro b
    cases v <;> simp [mkSecondaryMetric, displayValue]

def c3WitnessNode : PlanNode :=
  .mk [("Sort Key", JValue.arr [JValue.str "id", JValue.str "name"]),
       ("Parallel Aware", JValue.bool true)] []

/-- Claim C3, witness: on a concrete node, a `Sort Key` array displays
as `id, name` and a `Parallel Aware` boolean displays as `Да`. -/
theorem c3_secondary_value_norm_witness :
    mkSecondaryMetric "Sort Key" (JValue.arr [JValue.str "id", JValue.str "name"])
        ∈ getSecondaryMetrics c3WitnessNode ∧
    (mkSecondaryMetric "Sort Key"
        (JValue.arr [JValue.str "id", JValue.str "name"])).value = JValue.str "id, name" ∧
    (mkSecondaryMetric "Parallel Aware" (JValue.bool true)).value = JValue.str "Да" :=
  ⟨(c3_secondary_value_norm c3WitnessNode "Sort Key"
      (JValue.arr [JValue.str "id", JValue.str "name"])
      (by decide) (by decide) (by decide) (by decide)).1,
   (c3_secondary_value_norm c3WitnessNode "Sort Key"
      (JValue.arr [JValue.str "id", JValue.str "name"])
      (by decide) (by decide) (by decide) (by decide)).2.1 _ rfl,
   (c3_secondary_value_norm c3WitnessNode "Parallel Aware" (JValue.bool true)
      (by decide) (by decide) (by decide) (by decide)).2.2.1 rfl⟩

/-! Claim C4. -/

/-- Claim C4: immediately after `expandAll()`, `isExpanded` is true for
the node id of every node reachable by pre-order traversal of the tree,
and after a subsequent `collapseAll()` (which replaces the state by a
fresh empty set) it is false for all of them. -/
theorem c4_expandAll_collapseAll (plan n : PlanNode) (d i : Nat)
    (h : (n, d, i) ∈ preorderNodes plan 0 0) :
    isExpanded (expandAll plan) (getNodeId n d i) = true ∧
    isExpanded collapseAll (getNodeId n d i) = false := by
  constructor
  · simp only [isExpanded, expandAll, decide_eq_true_eq, List.mem_toFinset]
    rw [collectNodeIds_eq_preorder]
    exact List.mem_map.mpr ⟨(n, d, i), h, rfl⟩
  · simp [isExpanded, collapseAll]

def c4WitnessChild : PlanNode := .mk [("Node Type", JValue.str "Seq Scan")] []

def c4WitnessTree : PlanNode :=
  .mk [("Node Type", JValue.str "Hash Join")] [c4WitnessChild]

/-- Claim C4, witness: in a concrete two-node tree the child at depth 1,
index 0 is expanded after `expandAll` and collapsed after `collapseAll`. -/
theorem c4_expandAll_collapseAll_witness :
    isExpanded (expandAll c4WitnessTree) (getNodeId c4WitnessChild 1 0) = true ∧
    isExpanded collapseAll (getNodeId c4WitnessChild 1 0) = false :=
  c4_expandAll_collapseAll c4WitnessTree c4WitnessChild 1 0 (by decide)

/-! Claim C5. -/

/-- Claim C5: `toggleNode` flips exactly the membership of the toggled
id — the id is in the new set iff it was not in the old one, any other
id keeps its membership, and toggling the same id twice restores the
original set. -/
theorem c5_toggle_flips (s : Finset String) (n m : String) (hmn : m ≠ n) :
    (n ∈ toggleNode s n ↔ ¬ n ∈ s) ∧
    (m ∈ toggleNode s n ↔ m ∈ s) ∧
    toggleNode (toggleNode s n) n = s := by
  by_cases h : n ∈ s
  · refine ⟨?_, ?_, ?_⟩
    · simp [toggleNode, h]
    · simp [toggleNode, h, Finset.mem_erase, hmn]
    · simp [toggleNode, h, Finset.insert_erase]
  · refine ⟨?_, ?_, ?_⟩
    · simp [toggleNode, h]
    · simp [toggleNode, h, Finset.mem_insert, hmn]
    · simp [toggleNode, h, Finset.erase_insert]

/-- Claim C5, witness: toggling `"1-0-Seq Scan"` on the singleton set
containing it removes it, leaves `"0-0-Sort"` alone, and a second toggle
restores the set. -/
theorem c5_toggle_flips_witness :
    ("1-0-Seq Scan" ∈ toggleNode {"1-0-Seq Scan", "0-0-Sort"} "1-0-Seq Scan" ↔
      ¬ "1-0-Seq Scan" ∈ ({"1-0-Seq Scan", "0-0-Sort"} : Finset String)) ∧
    ("0-0-Sort" ∈ toggleNode {"1-0-Seq Scan", "0-0-Sort"} "1-0-Seq Scan" ↔
      "0-0-Sort" ∈ ({"1-0-Seq Scan", "0-0-Sort"} : Finset String)) ∧
    toggleNode (toggleNode {"1-0-Seq Scan", "0-0-Sort"} "1-0-Seq Scan") "1-0-Seq Scan"
      = {"1-0-Seq Scan", "0-0-Sort"} :=
  c5_toggle_flips {"1-0-Seq Scan", "0-0-Sort"} "1-0-Seq Scan" "0-0-Sort" (by decide)

/-! Claim C6. -/

def conflictA : PlanNode :=
  .mk [("Node Type", JValue.str "Seq Scan"), ("Relation Name", JValue.str "left_child")] []

def conflictB : PlanNode :=
  .mk [("Node Type", JValue.str "Seq Scan"), ("Relation Name", JValue.str "right_child")] []

def conflictTree : PlanNode :=
  .mk [("Node Type", JValue.str "Nested Loop")]
    [ .mk [("Node Type", JValue.str "Materialize")] [conflictA],
      .mk [("Node Type", JValue.str "Hash")] [conflictB] ]

/-- Claim C6: `getNodeId` depends on the node only through its
`Node Type` field (besides depth and sibling index), and it is not
globally unique: in `conflictTree` the two distinct leaves `conflictA`
and `conflictB` are both visited at depth 2, sibling index 0, get the
same node id, and toggling the id of one marks the other expanded. -/
theorem c6_nodeId_conflation (n1 n2 : PlanNode) (d i : Nat)
    (h : jsGet n1 "Node Type" = jsGet n2 "Node Type") :
    getNodeId n1 d i = getNodeId n2 d i ∧
    conflictA ≠ conflictB ∧
    (conflictA, 2, 0) ∈ preorderNodes conflictTree 0 0 ∧
    (conflictB, 2, 0) ∈ preorderNodes conflictTree 0 0 ∧
    getNodeId conflictA 2 0 = getNodeId conflictB 2 0 ∧
    isExpanded (toggleNode ∅ (getNodeId conflictA 2 0)) (getNodeId conflictB 2 0) = true := by
  refine ⟨?_, by decide, by decide, by decide, by decide, by decide⟩
  unfold getNodeId
  rw [h]

/-- Claim C6, witness: the generic determinism part applied to the two
conflicting leaves themselves. -/
theorem c6_nodeId_conflation_witness :
    getNodeId conflictA 2 0 = getNodeId conflictB 2 0 ∧
    conflictA ≠ conflictB :=
  ⟨(c6_nodeId_conflation conflictA conflictB 2 0 (by decide)).1,
   (c6_nodeId_conflation conflictA conflictB 2 0 (by decide)).2.1⟩

/-! Claim C7. -/

/-- Claim C7: with an absent (null/undefined) plan, the `ExecutionPlan`
component returns null — it renders nothing, in any component state. -/
theorem c7_absent_plan_renders_nothing (st : UIState) :
    ExecutionPlan st none = none :=
  rfl

/-! Claim C8. -/

/-- Claim C8: a plan node lacking a `Node Type` field is still processed
at every depth and sibling index: it is rendered with the default label
`Unknown`, and it still gets a node id (whose type segment is the
`getNodeId` default `'unknown'`). -/
theorem c8_missing_node_type (node : PlanNode) (st : UIState) (d i : Nat)
    (h : jsGet node "Node Type" = none) :
    (renderNode st node d i).label = "Unknown" ∧
    (renderNode st node d i).nodeId
      = toString d ++ "-" ++ toString i ++ "-" ++ "unknown" := by
  cases node with
  | mk fs ps =>
      constructor
      · simp only [renderNode, Rendered.label, jsLabel, jsOrString, h]
      · simp only [renderNode, Rendered.nodeId, getNodeId, jsOrString, h]

/-- Claim C8, witness: a node carrying only `Total Cost`, rendered at
depth 5, sibling index 2. -/
theorem c8_missing_node_type_witness :
    (renderNode (UIState.mk false ∅) (PlanNode.mk [("Total Cost", JValue.num 10)] []) 5 2).label
      = "Unknown" ∧
    (renderNode (UIState.mk false ∅) (PlanNode.mk [("Total Cost", JValue.num 10)] []) 5 2).nodeId
      = "5-2-unknown" :=
  c8_missing_node_type (PlanNode.mk [("Total Cost", JValue.num 10)] [])
    (UIState.mk false ∅) 5 2 rfl

/-! Claim C9. -/

/-- Claim C9: the secondary-metrics visibility is one flag shared by the
whole tree: the details button rendered under any node runs the same
state update whatever node it sits under, and after pressing it every
rendered node of the tree shows its secondary metrics exactly when the
flipped flag is set (and the node has secondary metrics) — no per-node
state exists. -/
theorem c9_showDetails_global (pressed other : String) (st : UIState)
    (plan : PlanNode) (d i : Nat) (r : Rendered)
    (hr : r ∈ flattenRendered (renderNode (detailsButtonHandler pressed st) plan d i)) :
    detailsButtonHandler pressed st = detailsButtonHandler other st ∧
    r.secondaryShown = (!st.showDetails && decide (0 < r.secondary.length)) := by
  constructor
  · rfl
  · have hshape :=
      secondaryShown_of_mem_render (detailsButtonHandler pressed st) plan d i r hr
    simpa [detailsButtonHandler] using hshape

def c9WitnessPlan : PlanNode :=
  .mk [("Node Type", JValue.str "Seq Scan"), ("Filter", JValue.str "f")] []

def c9WitnessState : UIState := UIState.mk false ∅

/-- Claim C9, witness: pressing the button under one node with the flag
initially off equals pressing it under any other node, and the root then
shows its secondary metrics. -/
theorem c9_showDetails_global_witness :
    detailsButtonHandler "0-0-Seq Scan" c9WitnessState
      = detailsButtonHandler "1-0-Hash" c9WitnessState ∧
    (renderNode (detailsButtonHandler "0-0-Seq Scan" c9WitnessState)
        c9WitnessPlan 0 0).secondaryShown
      = (!c9WitnessState.showDetails &&
          decide (0 < (renderNode (detailsButtonHandler "0-0-Seq Scan" c9WitnessState)
            c9WitnessPlan 0 0).secondary.length)) :=
  c9_showDetails_global "0-0-Seq Scan" "1-0-Hash" c9WitnessState c9WitnessPlan 0 0
    (renderNode (detailsButtonHandler "0-0-Seq Scan" c9WitnessState) c9WitnessPlan 0 0)
    (self_mem_flattenRendered _)

/-! Claim C10. -/

/-- Claim C10: a recommendation whose priority is none of `high`,
`medium`, `low` is still rendered in the list (one item per
recommendation, with the default badge class), but it is counted in none
of the three priority-summary groups, so the three counts sum to
strictly less than the total number of recommendations. -/
theorem c10_priority_summary (recs : List Recommendation) (r : Recommendation)
    (hmem : r ∈ recs)
    (hp : ¬ r.priority ∈ (["high", "medium", "low"] : List String)) :
    (renderRecommendationList recs).length = recs.length ∧
    getPriorityBadge r.priority = baseClasses ++ " bg-gray-100 text-gray-800" ∧
    { heading := r.title, badgeClass := baseClasses ++ " bg-gray-100 text-gray-800",
      badgeText := r.priority.toUpper }
      ∈ renderRecommendationList recs ∧
    countPriority recs "high" + countPriority recs "medium" + countPriority recs "low"
      < recs.length := by
  have hlt := countPriority_sum_lt recs r hmem hp
  simp only [List.mem_cons, List.mem_singleton, not_or] at hp
  have hb : getPriorityBadge r.priority = baseClasses ++ " bg-gray-100 text-gray-800" := by
    simp only [getPriorityBadge, if_neg hp.1, if_neg hp.2.1, if_neg hp.2.2.1]
  refine ⟨by simp [renderRecommendationList], hb, ?_, hlt⟩
  refine List.mem_map.mpr ⟨r, hmem, ?_⟩
  simp [hb]

def c10WitnessRec : Recommendation :=
  Recommendation.mk "Партиционирование таблицы" "desc" "structure" "critical"

def c10WitnessRecs : List Recommendation :=
  [c10WitnessRec, Recommendation.mk "Добавить индекс" "desc" "index" "high"]

/-- Claim C10, witness: with one `critical` and one `high`
recommendation, both render, the `critical` one gets the default badge,
and the summary counts sum to 1 < 2. -/
theorem c10_priority_summary_witness :
    (renderRecommendationList c10WitnessRecs).length = c10WitnessRecs.length ∧
    getPriorityBadge c10WitnessRec.priority = baseClasses ++ " bg-gray-100 text-gray-800" ∧
    { heading := c10WitnessRec.title,
      badgeClass := baseClasses ++ " bg-gray-100 text-gray-800",
      badgeText := c10WitnessRec.priority.toUpper }
      ∈ renderRecommendationList c10WitnessRecs ∧
    countPriority c10WitnessRecs "high" + countPriority c10WitnessRecs "medium"
        + countPriority c10WitnessRecs "low"
      < c10WitnessRecs.length :=
  c10_priority_summary c10WitnessRecs c10WitnessRec (by decide) (by decide)
